import Mathlib

/-
  Shallow embedding of src/src/connectors/http.ts (the anyconn HTTP helper).

  JavaScript runtime values that can appear in a TCommonRecord
  (string | number | boolean), plus null/undefined which the code tests for
  at runtime via isInvalidValue.  JS numbers are modelled as integers: every
  value exercised by the specification is integral, and integral doubles
  stringify exactly like integers.
-/

inductive HVal where
  | str (s : String)
  | num (n : Int)
  | bool (b : Bool)
  | null
  | undef
deriving DecidableEq, Repr

/- `isInvalidValue = (v) => v === null || typeof v === 'undefined'` (line 14). -/
def HVal.isInvalidValue : HVal → Bool
  | .null => true
  | .undef => true
  | _ => false

/- JS string coercion (`v.toString()` on line 31/82, `String(v)` coercion in
   template literals on lines 97 and 105-111).  For null/undefined this is the
   `String()` coercion result; `.toString()` is only ever called on values that
   passed the isInvalidValue guard, where both coercions agree. -/
def HVal.toStr : HVal → String
  | .str s => s
  | .num n => toString n
  | .bool b => if b then "true" else "false"
  | .null => "null"
  | .undef => "undefined"

/- A plain JS object with scalar values: insertion-ordered entry list.
   JS objects cannot hold duplicate keys; theorems that need that fact take a
   Nodup hypothesis on the key list. -/
abbrev JSRecord := List (String × HVal)

/- JS property assignment `h[k] = v` on a plain object: overwrite in place if
   the key exists (keeping its position), else append. -/
def setKey : List (String × String) → String → String → List (String × String)
  | [], k, v => [(k, v)]
  | p :: rest, k, v => if p.1 = k then (k, v) :: rest else p :: setKey rest k v

/- JS property read `h[k]` returning undefined (none) when absent. -/
def getVal (l : List (String × String)) (k : String) : Option String :=
  (l.find? (fun p => p.1 == k)).map (fun p => p.2)

/- `HEADERS` (lines 17-20). -/
def HEADERS : List (String × String) := [("accept", "*/*"), ("connection", "keep-alive")]

/- `HEADERS_STATIC` (lines 22-24). -/
def HEADERS_STATIC : List (String × String) := [("user-agent", "AnyConn/0.0.1")]

/- The `Object.entries(v).forEach` loop of formatHeader (lines 29-33). -/
def applyEntriesList (h : List (String × String)) (r : List (String × HVal)) :
    List (String × String) :=
  r.foldl (fun h kv => if kv.2.isInvalidValue then h else setKey h kv.1 kv.2.toStr) h

/- `formatHeader` (lines 26-36).  `none` stands for an argument that is
   undefined or fails the isRecord test; the final spread
   `{ ...h, ...HEADERS_STATIC }` assigns each static entry over `h`. -/
def formatHeader (v : Option JSRecord) : List (String × String) :=
  let h := match v with
    | some r => applyEntriesList HEADERS r
    | none => HEADERS
  HEADERS_STATIC.foldl (fun acc kv => setKey acc kv.1 kv.2) h

/- Characters matched by `\s` in a JS regular expression. -/
def jsWhitespaceChar (c : Char) : Bool :=
  let n := c.toNat
  (9 ≤ n && n ≤ 13) || n = 32 || n = 0xa0 || n = 0x1680 ||
  (0x2000 ≤ n && n ≤ 0x200a) || n = 0x2028 || n = 0x2029 ||
  n = 0x202f || n = 0x205f || n = 0x3000 || n = 0xfeff

/- `String.prototype.split(/\;\s*/)`: a separator is one ';' followed by a
   maximal run of whitespace.  The Bool flag records being inside the
   whitespace tail of a separator, so the recursion stays structural. -/
def splitSemiAux : List Char → List Char → Bool → List (List Char)
  | [], acc, _ => [acc.reverse]
  | c :: rest, acc, skip =>
    if c = ';' then acc.reverse :: splitSemiAux rest [] true
    else if skip && jsWhitespaceChar c then splitSemiAux rest acc true
    else splitSemiAux rest (c :: acc) false

def splitSemi (l : List Char) : List (List Char) := splitSemiAux l [] false

/- `String.prototype.split(/\/+/)`: a separator is a maximal run of '/'. -/
def splitSlashAux : List Char → List Char → Bool → List (List Char)
  | [], acc, _ => [acc.reverse]
  | c :: rest, acc, skip =>
    if c = '/' then
      if skip then splitSlashAux rest acc true
      else acc.reverse :: splitSlashAux rest [] true
    else splitSlashAux rest (c :: acc) false

def splitSlash (l : List Char) : List (List Char) := splitSlashAux l [] false

/- Line terminators, which `.` in a JS regular expression does not match. -/
def isLineTerm (c : Char) : Bool :=
  c = '\n' || c = '\r' || c.toNat = 0x2028 || c.toNat = 0x2029

/- `/^charset\=.+$/.test(ch)` on an already lower-cased segment (lines 48-52):
   the segment starts with "charset=" and the remainder is non-empty and free
   of line terminators.  The i flag of line 48 is moot because the input was
   lower-cased on line 46. -/
def charsetTest (chl : List Char) : Bool :=
  List.isPrefixOf ("charset=".data) chl &&
  !(chl.drop 8).isEmpty &&
  (chl.drop 8).all (fun c => !isLineTerm c)

/- The descriptor computed by getContentType.  `format` is none when
   destructuring `const [type, format]` leaves format undefined. -/
structure ContentType where
  type : String
  format : Option String
  charset : String
deriving DecidableEq, Repr

def ctDefault : ContentType := ⟨"text", some "plain", "utf-8"⟩

/- `String.prototype.toLowerCase`, modelled on ASCII (the only code points the
   program's content-type handling distinguishes). -/
def jsToLower (s : String) : String := String.mk (s.data.map Char.toLower)

/- `getContentType` (lines 38-57).  `none` models an argument that is absent
   or not a string; the empty string is falsy and also takes the default
   branch. -/
def getContentType : Option String → ContentType
  | none => ctDefault
  | some s =>
    if s = "" then ctDefault
    else
      let pieces := splitSemi (jsToLower s).data
      let t := pieces.headD []
      let charset : String :=
        match pieces[1]? with
        | some chl =>
          if !chl.isEmpty && charsetTest chl then String.mk (chl.drop 8) else "utf-8"
        | none => "utf-8"
      let mainParts := splitSlash t
      ⟨String.mk (mainParts.headD []), (mainParts[1]?).map String.mk, charset⟩

/-
  Byte-level encoders.  `Buffer.from(string)` encodes the string as UTF-8;
  request bodies are modelled as the resulting byte list.
-/

def utf8EncodeChar (c : Char) : List Nat :=
  let n := c.toNat
  if n < 0x80 then [n]
  else if n < 0x800 then
    [0xc0 ||| (n >>> 6), 0x80 ||| (n &&& 0x3f)]
  else if n < 0x10000 then
    [0xe0 ||| (n >>> 12), 0x80 ||| ((n >>> 6) &&& 0x3f), 0x80 ||| (n &&& 0x3f)]
  else
    [0xf0 ||| (n >>> 18), 0x80 ||| ((n >>> 12) &&& 0x3f),
     0x80 ||| ((n >>> 6) &&& 0x3f), 0x80 ||| (n &&& 0x3f)]

def utf8Encode (s : String) : List Nat := s.data.flatMap utf8EncodeChar

def hexUpper (n : Nat) : Char :=
  if n < 10 then Char.ofNat (48 + n) else Char.ofNat (55 + n)

def pctByte (b : Nat) : List Char := ['%', hexUpper (b / 16), hexUpper (b % 16)]

/- The characters `encodeURIComponent` leaves unescaped. -/
def isUnreservedEC (c : Char) : Bool :=
  c.isAlphanum || c = '-' || c = '_' || c = '.' || c = '!' || c = '~' ||
  c = '*' || c.toNat = 39 || c = '(' || c = ')'

/- `encodeURIComponent`: unreserved characters pass through, every other
   character is replaced by the uppercase-hex percent-encoding of its UTF-8
   bytes. -/
def encodeURIComponent (s : String) : String :=
  String.mk (s.data.flatMap (fun c =>
    if isUnreservedEC c then [c] else (utf8EncodeChar c).flatMap pctByte))

def hexLower (n : Nat) : Char :=
  if n < 10 then Char.ofNat (48 + n) else Char.ofNat (87 + n)

/- The string escaping performed by `JSON.stringify`. -/
def jsonEscapeChar (c : Char) : List Char :=
  if c = '"' then ['\\', '"']
  else if c = '\\' then ['\\', '\\']
  else if c = '\n' then ['\\', 'n']
  else if c = '\r' then ['\\', 'r']
  else if c = '\t' then ['\\', 't']
  else if c.toNat = 8 then ['\\', 'b']
  else if c.toNat = 12 then ['\\', 'f']
  else if c.toNat < 32 then
    ['\\', 'u', '0', '0', hexLower (c.toNat / 16), hexLower (c.toNat % 16)]
  else [c]

def jsonQuote (s : String) : String :=
  String.mk ('"' :: (s.data.flatMap jsonEscapeChar ++ ['"']))

/- JSON.stringify of one scalar property value; none means the property is
   omitted (JSON.stringify drops undefined-valued properties). -/
def jsonScalarStr : HVal → Option String
  | .str s => some (jsonQuote s)
  | .num n => some (toString n)
  | .bool b => some (if b then "true" else "false")
  | .null => some "null"
  | .undef => none

/- `JSON.stringify(data)` for a flat record of scalars (line 91). -/
def jsonStringifyRecord (r : JSRecord) : String :=
  "\x7b" ++
    String.intercalate ","
      (r.filterMap (fun kv => (jsonScalarStr kv.2).map (fun s => jsonQuote kv.1 ++ ":" ++ s))) ++
  "\x7d"

/- The urlencoded body of line 97:
   `Object.keys(data).map(k => encodeURIComponent(k)=encodeURIComponent(data[k])).join('&')`. -/
def formEncode (r : JSRecord) : String :=
  String.intercalate "&"
    (r.map (fun kv => encodeURIComponent kv.1 ++ "=" ++ encodeURIComponent kv.2.toStr))

def base36Digit (n : Nat) : Char :=
  if n < 10 then Char.ofNat (48 + n) else Char.ofNat (87 + n)

/- Fuelled base-36 digit loop; fuel n+1 always suffices because the value
   shrinks strictly each step, and keeps the recursion structural. -/
def natToBase36Aux : Nat → Nat → List Char → List Char
  | 0, _, acc => acc
  | fuel + 1, n, acc =>
    if n = 0 then acc else natToBase36Aux fuel (n / 36) (base36Digit (n % 36) :: acc)

/- `Number.prototype.toString(36)` for a non-negative integer
   (`Date.now().toString(36)` on line 103). -/
def natToBase36 (n : Nat) : String :=
  if n = 0 then "0" else String.mk (natToBase36Aux (n + 1) n [])

/- `String.prototype.substring(i)` (simple code points; all inputs here are
   single UTF-16 units). -/
def jsSubstring (s : String) (i : Nat) : String := String.mk (s.data.drop i)

/- The boundary of line 103: `now` is Date.now() and r1, r2 are the two
   `Math.random().toString(36)` result strings. -/
def mkBoundary (now : Nat) (r1 r2 : String) : String :=
  "AnyConn" ++ natToBase36 now ++ jsSubstring r1 2 ++ jsSubstring r2 2

/- The multipart body of lines 104-112. -/
def formdataBody (boundary : String) (r : JSRecord) : String :=
  String.join (r.map (fun kv =>
    "--" ++ boundary ++ "\n" ++
    "Content-Disposition: form-data; name=\"" ++ kv.1 ++ "\"\n\n" ++
    kv.2.toStr ++ "\n")) ++
  "--" ++ boundary ++ "--"

/-
  URL model: the parts of a WHATWG URL object the program touches — its
  scheme, its query parameter list, and everything else collapsed into an
  opaque `base`.
-/

structure URLRec where
  protocol : String
  base : String
  params : List (String × String)
deriving DecidableEq, Repr

/- `URLSearchParams.set(k, v)`: replace the value of the first pair named k
   and delete every later pair named k; append when k is absent. -/
def spSet : List (String × String) → String → String → List (String × String)
  | [], k, v => [(k, v)]
  | p :: rest, k, v =>
    if p.1 = k then (k, v) :: rest.filter (fun q => q.1 ≠ k)
    else p :: spSet rest k v

/- The GET loop of lines 80-84: searchParams.set for every entry whose value
   passes the isInvalidValue guard, in entry order. -/
def applyQuery (ps : List (String × String)) (r : JSRecord) : List (String × String) :=
  r.foldl (fun ps kv => if kv.2.isInvalidValue then ps else spSet ps kv.1 kv.2.toStr) ps

inductive Method where
  | GET
  | POST
deriving DecidableEq, Repr

inductive DataType where
  | json
  | form
  | formdata
deriving DecidableEq, Repr

/- `THttpRequestOptions` (lines 6-12).  `url` is a string or an already
   parsed URL; optional fields are none when omitted; `data` is a record or a
   raw string. -/
structure THttpRequestOptions where
  url : Sum String URLRec
  method : Option Method
  header : Option JSRecord
  data : Option (Sum JSRecord String)
  dataType : Option DataType
deriving Repr

/- What the program hands to `H.request` plus the body it then writes: the
   mutated URL, the method, the merged headers and the body bytes
   (lines 72-122 and 167-177). -/
structure OutgoingRequest where
  uri : URLRec
  method : Method
  headers : List (String × String)
  body : List Nat
deriving DecidableEq, Repr

/- Line 167: the body is written on the wire only when it is non-empty. -/
def sendsBody (r : OutgoingRequest) : Bool := r.body.length > 0

/- Request construction, lines 64-122: option defaulting, URL normalisation
   (`parseURL` stands for `new URL(string)`), header merging, then the
   GET query-injection / POST body-encoding branches.  `now`, `r1`, `r2` are
   the values of `Date.now()` and the two `Math.random().toString(36)` calls
   of line 103. -/
def resolveURL (parseURL : String → URLRec) : Sum String URLRec → URLRec
  | .inl s => parseURL s
  | .inr u => u

def buildRequest (parseURL : String → URLRec) (opts : THttpRequestOptions)
    (now : Nat) (r1 r2 : String) : OutgoingRequest :=
  let method := opts.method.getD .GET
  let dataType := opts.dataType.getD .json
  let uri := resolveURL parseURL opts.url
  let headers := formatHeader opts.header
  match opts.data with
  | some (.inl r) =>
    match method with
    | .GET => ⟨⟨uri.protocol, uri.base, applyQuery uri.params r⟩, method, headers, []⟩
    | .POST =>
      -- lines 86-87: the content-type descriptor is computed and then unused
      let contentType := (getVal headers "content-type").getD "application/json"
      let _ct := getContentType (some contentType)
      match dataType with
      | .json =>
        ⟨uri, method, setKey headers "content-type" "application/json",
         utf8Encode (jsonStringifyRecord r)⟩
      | .form =>
        ⟨uri, method, setKey headers "content-type" "application/x-www-form-urlencoded",
         utf8Encode (formEncode r)⟩
      | .formdata =>
        let boundary := mkBoundary now r1 r2
        ⟨uri, method,
         setKey headers "content-type" ("multipart/form-data; boundary=" ++ boundary),
         utf8Encode (formdataBody boundary r)⟩
  | _ => ⟨uri, method, headers, []⟩

/- The default export (lines 180-186): a bare string is wrapped into an
   options record whose other fields are all omitted. -/
def defaultExport (parseURL : String → URLRec) (options : Sum String THttpRequestOptions)
    (now : Nat) (r1 r2 : String) : OutgoingRequest :=
  match options with
  | .inl s => buildRequest parseURL ⟨.inl s, none, none, none, none⟩ now r1 r2
  | .inr o => buildRequest parseURL o now r1 r2

/-
  Response side: the `'end'` listener of lines 135-159.  The decoded value
  is polymorphic in α, the type of parsed JSON values; `jsonParse` models
  `JSON.parse` (error = the exception it would throw) and `decode` models
  `Buffer.prototype.toString(charset)`.
-/

inductive RespData (α : Type) where
  | json (v : α)
  | str (s : String)
  | buf (b : List Nat)
deriving DecidableEq, Repr

structure HttpResult (α : Type) where
  statusCode : Nat
  data : RespData α
  headers : List (String × String)
deriving DecidableEq, Repr

/- How one invocation of a listener leaves the promise: `resolve` called,
   `reject` called, or an exception escaping the listener (the promise then
   stays pending and the runtime raises an uncaught exception). -/
inductive Outcome (α : Type) where
  | resolved (r : HttpResult α)
  | rejected (e : String)
  | thrown (e : String)
deriving DecidableEq, Repr

/- The `'end'` listener (lines 135-159): concatenate the chunks, parse the
   response content-type, and branch on the descriptor.  The JSON.parse call
   of line 142 is not guarded by any try/catch, so its exception escapes the
   listener: neither resolve nor reject runs. -/
def onEnd {α : Type} (jsonParse : String → Except String α)
    (decode : String → List Nat → String)
    (respHeaders : List (String × String)) (status : Option Nat)
    (chunks : List (List Nat)) : Outcome α :=
  let data := chunks.flatten
  let t := getContentType (getVal respHeaders "content-type")
  if t.format = some "json" then
    match jsonParse (decode t.charset data) with
    | .error e => .thrown e
    | .ok v => .resolved ⟨status.getD 0, .json v, respHeaders⟩
  else if t.type = "text" then
    .resolved ⟨status.getD 0, .str (decode t.charset data), respHeaders⟩
  else
    .resolved ⟨status.getD 0, .buf data, respHeaders⟩

/-
  Helper lemmas about the header table operations.
-/

theorem getVal_cons (p : String × String) (l : List (String × String)) (k : String) :
    getVal (p :: l) k = if p.1 = k then some p.2 else getVal l k := by
  by_cases h : p.1 = k
  · simp [getVal, List.find?, h]
  · have hb : (p.1 == k) = false := beq_eq_false_iff_ne.mpr h
    simp [getVal, List.find?, hb, h]

theorem getVal_setKey_self (l : List (String × String)) (k v : String) :
    getVal (setKey l k v) k = some v := by
  induction l with
  | nil => simp [setKey, getVal_cons]
  | cons p rest ih =>
    by_cases h : p.1 = k
    · simp [setKey, h, getVal_cons]
    · simp [setKey, h, getVal_cons, ih]

theorem getVal_setKey_ne (l : List (String × String)) (k v j : String) (h : j ≠ k) :
    getVal (setKey l k v) j = getVal l j := by
  induction l with
  | nil =>
    have hb : (k == j) = false := beq_eq_false_iff_ne.mpr (Ne.symm h)
    simp [setKey, getVal, List.find?, hb]
  | cons p rest ih =>
    by_cases hp : p.1 = k
    · simp [setKey, hp, getVal_cons, Ne.symm h]
    · simp [setKey, hp, getVal_cons, ih]

theorem getVal_applyEntriesList_invalid (r : JSRecord) (h : List (String × String))
    (k : String) (hk : ∀ val, (k, val) ∈ r → val.isInvalidValue = true) :
    getVal (applyEntriesList h r) k = getVal h k := by
  induction r generalizing h with
  | nil => rfl
  | cons kv rest ih =>
    obtain ⟨k0, v0⟩ := kv
    have hstep : applyEntriesList h ((k0, v0) :: rest) =
        applyEntriesList (if v0.isInvalidValue then h else setKey h k0 v0.toStr) rest := by
      simp [applyEntriesList]
    rw [hstep, ih _ (fun val hm => hk val (List.mem_cons_of_mem _ hm))]
    cases hv : v0.isInvalidValue with
    | true => simp
    | false =>
      simp only [Bool.false_eq_true, if_false]
      by_cases hkk : k0 = k
      · exact absurd (hk v0 (hkk ▸ List.mem_cons_self _ _)) (by simp [hv])
      · exact getVal_setKey_ne h k0 v0.toStr k (Ne.symm hkk)

theorem getVal_applyEntriesList_valid (r : JSRecord) (h : List (String × String))
    (k : String) (val : HVal) (hnd : (r.map Prod.fst).Nodup)
    (hmem : (k, val) ∈ r) (hv : val.isInvalidValue = false) :
    getVal (applyEntriesList h r) k = some val.toStr := by
  induction r generalizing h with
  | nil => cases hmem
  | cons kv rest ih =>
    obtain ⟨k0, v0⟩ := kv
    rw [List.map_cons, List.nodup_cons] at hnd
    rcases List.mem_cons.mp hmem with heq | hmem'
    · cases heq
      have hnotin : ∀ v2 : HVal, (k, v2) ∈ rest → v2.isInvalidValue = true := by
        intro v2 hm
        exact absurd (List.mem_map.mpr ⟨(k, v2), hm, rfl⟩) hnd.1
      have hstep : applyEntriesList h ((k, val) :: rest) =
          applyEntriesList (setKey h k val.toStr) rest := by
        simp [applyEntriesList, hv]
      rw [hstep, getVal_applyEntriesList_invalid rest _ k hnotin, getVal_setKey_self]
    · have hk0 : k0 ≠ k := by
        intro e
        exact hnd.1 (by rw [e]; exact List.mem_map.mpr ⟨(k, val), hmem', rfl⟩)
      have hstep : applyEntriesList h ((k0, v0) :: rest) =
          applyEntriesList (if v0.isInvalidValue then h else setKey h k0 v0.toStr) rest := by
        simp [applyEntriesList]
      rw [hstep]
      exact ih _ hnd.2 hmem'

theorem formatHeader_some_eq (r : JSRecord) :
    formatHeader (some r) = setKey (applyEntriesList HEADERS r) "user-agent" "AnyConn/0.0.1" := rfl

theorem formatHeader_none_eq :
    formatHeader none = setKey HEADERS "user-agent" "AnyConn/0.0.1" := rfl

/- charsetTest only accepts segments with at least the 8 prefix characters,
   so the truthiness guard `ch &&` of line 48 is subsumed by it. -/
theorem charsetTest_nonempty (chl : List Char) (h : charsetTest chl = true) :
    chl.isEmpty = false := by
  cases chl with
  | nil => simp [charsetTest, List.isPrefixOf] at h
  | cons c rest => rfl

/-
  Claim theorems.
-/

/-- C1 (counterexample): the claim asserts that every caller key carrying a
null/undefined value is absent from the final header set.  For the caller
record with the single entry accept ↦ null, the key "accept" is nevertheless
present in the outgoing headers (with its default value), so the claim as
stated is false. -/
theorem c1_counterexample :
    getVal (formatHeader (some [("accept", HVal.null)])) "accept" = some "*/*" := by decide

/-- C1 (amended): the outgoing header set is the fixed defaults overridden by
the caller entries — each scalar coerced to its string form, entries with
null/undefined values skipped entirely (contributing nothing to the merge) —
overridden last by the identity user-agent header.  Consequently user-agent is
always the fixed identity value; a key all of whose caller entries are
null/undefined behaves exactly as if the caller had not mentioned it, and is
absent from the final set unless it is one of the default keys (accept,
connection) or user-agent. -/
theorem c1_header_merge (v : JSRecord) (hnd : (v.map Prod.fst).Nodup) :
    getVal (formatHeader (some v)) "user-agent" = some "AnyConn/0.0.1" ∧
    (∀ k val, (k, val) ∈ v → val.isInvalidValue = false → k ≠ "user-agent" →
      getVal (formatHeader (some v)) k = some val.toStr) ∧
    (∀ k, (∀ val, (k, val) ∈ v → val.isInvalidValue = true) →
      getVal (formatHeader (some v)) k = getVal (formatHeader none) k) ∧
    (∀ k, (∀ val, (k, val) ∈ v → val.isInvalidValue = true) →
      k ≠ "accept" → k ≠ "connection" → k ≠ "user-agent" →
      getVal (formatHeader (some v)) k = none) := by
  refine ⟨?_, ?_, ?_, ?_⟩
  · rw [formatHeader_some_eq, getVal_setKey_self]
  · intro k val hmem hval hk
    rw [formatHeader_some_eq, getVal_setKey_ne _ _ _ _ hk]
    exact getVal_applyEntriesList_valid v HEADERS k val hnd hmem hval
  · intro k hinv
    by_cases hk : k = "user-agent"
    · subst hk
      rw [formatHeader_some_eq, formatHeader_none_eq, getVal_setKey_self, getVal_setKey_self]
    · rw [formatHeader_some_eq, formatHeader_none_eq,
        getVal_setKey_ne _ _ _ _ hk, getVal_setKey_ne _ _ _ _ hk]
      exact getVal_applyEntriesList_invalid v HEADERS k hinv
  · intro k hinv hka hkc hku
    rw [formatHeader_some_eq, getVal_setKey_ne _ _ _ _ hku,
      getVal_applyEntriesList_invalid v HEADERS k hinv]
    have hba : ("accept" == k) = false := beq_eq_false_iff_ne.mpr (Ne.symm hka)
    have hbc : ("connection" == k) = false := beq_eq_false_iff_ne.mpr (Ne.symm hkc)
    simp [HEADERS, getVal, List.find?, hba, hbc]

/-- C1 (witness): the amended merge theorem at the caller record
x-token ↦ "t", drop ↦ null: user-agent keeps the identity value, x-token comes
through stringified, and drop is absent. -/
theorem c1_header_merge_witness :
    getVal (formatHeader (some [("x-token", HVal.str "t"), ("drop", HVal.null)])) "x-token" =
      some "t" ∧
    getVal (formatHeader (some [("x-token", HVal.str "t"), ("drop", HVal.null)])) "drop" =
      none := by
  have h := c1_header_merge [("x-token", HVal.str "t"), ("drop", HVal.null)] (by decide)
  refine ⟨h.2.1 "x-token" (HVal.str "t") (by decide) (by decide) (by decide), ?_⟩
  have hdrop : ∀ val : HVal,
      ("drop", val) ∈ [("x-token", HVal.str "t"), ("drop", HVal.null)] →
      val.isInvalidValue = true := by
    intro val hm
    simp only [List.mem_cons, List.mem_singleton, Prod.mk.injEq] at hm
    rcases hm with ⟨h1, _⟩ | ⟨_, h2⟩ | hfalse
    · exact absurd h1 (by decide)
    · rw [h2]
      rfl
    · cases hfalse
  exact h.2.2.2 "drop" hdrop (by decide) (by decide) (by decide)

/-- C2 (counterexample): the claim asserts charset= is extracted from any
parameter segment and that a malformed value yields the full default
descriptor.  The code only inspects the segment immediately after the first
';': for "text/plain; a=1; charset=gbk" the charset stays "utf-8" instead of
"gbk"; and the slash-free value "garbage" does not produce the default
descriptor (its type becomes "garbage" and its format undefined). -/
theorem c2_counterexample :
    (getContentType (some "text/plain; a=1; charset=gbk")).charset = "utf-8" ∧
    getContentType (some "garbage") ≠ ctDefault := by decide

/-- C2 (amended): the descriptor is derived by lower-casing the value,
splitting on ';' (each ';' absorbing the whitespace after it), splitting the
first segment on '/' into type (before) and format (after, undefined when no
'/' occurs), and extracting charset= from the second segment only — later
parameter segments are never examined.  The default descriptor
text/plain/utf-8 applies exactly when the header is absent, not a string, or
the empty string. -/
theorem c2_content_type (s : String) :
    getContentType none = ctDefault ∧
    getContentType (some "") = ctDefault ∧
    (s ≠ "" →
      getContentType (some s) =
        ⟨String.mk ((splitSlash ((splitSemi (jsToLower s).data).headD [])).headD []),
         ((splitSlash ((splitSemi (jsToLower s).data).headD []))[1]?).map String.mk,
         match (splitSemi (jsToLower s).data)[1]? with
         | some chl => if charsetTest chl then String.mk (chl.drop 8) else "utf-8"
         | none => "utf-8"⟩) := by
  refine ⟨rfl, rfl, ?_⟩
  intro hs
  simp only [getContentType, hs, if_false]
  cases hch : (splitSemi (jsToLower s).data)[1]? with
  | none => rfl
  | some chl =>
    simp only
    cases hct : charsetTest chl with
    | true => simp [charsetTest_nonempty chl hct, hct]
    | false => simp [hct]

/-- C2 (witness): the amended derivation evaluated at a concrete header value
with mixed case and a charset parameter. -/
theorem c2_content_type_witness :
    getContentType (some "Application/JSON; charset=GBK") =
      ⟨"application", some "json", "gbk"⟩ := by
  rw [(c2_content_type "Application/JSON; charset=GBK").2.2 (by decide)]
  decide

/-- C3 (code bug): for a response claiming content-type application/json whose
body bytes are not valid JSON, the end listener calls JSON.parse with no
try/catch around it, so the parse exception escapes the listener: the promise
is neither resolved nor rejected (Node surfaces an uncaughtException), while
the claim and §7 of the spec require the result to be rejected with a
DecodeError carrying the parse error. -/
theorem c3_json_decode_error_thrown :
    onEnd (fun _ => (Except.error "Unexpected token o in JSON" : Except String Nat))
        (fun _ b => String.mk (b.map Char.ofNat))
        [("content-type", "application/json")] (some 200) [utf8Encode "not json"] =
      Outcome.thrown "Unexpected token o in JSON" ∧
    onEnd (fun _ => (Except.error "Unexpected token o in JSON" : Except String Nat))
        (fun _ b => String.mk (b.map Char.ofNat))
        [("content-type", "application/json")] (some 200) [utf8Encode "not json"] ≠
      Outcome.rejected "Unexpected token o in JSON" := by
  constructor
  · decide
  · decide

/- Dropping the first two characters of a "0."-prefixed representation keeps
   exactly the fractional digits. -/
theorem jsSubstring_radix (f : String) : jsSubstring ("0." ++ f) 2 = f := by
  cases f with
  | mk d => rfl

/-- C4 (confirmed): for a POST with dataType formdata and a record, the
boundary is the literal AnyConn prefix, the millisecond timestamp in base 36
and the two random base-36 representations each stripped of their leading
"0." radix prefix; the body is the concatenation of one
Content-Disposition part per entry in iteration order terminated by
--boundary--, encoded as UTF-8; and the content-type header is forced to
multipart/form-data with that same boundary token verbatim. -/
theorem c4_formdata_request (parseURL : String → URLRec) (url : Sum String URLRec)
    (hdr : Option JSRecord) (r : JSRecord) (now : Nat) (r1 r2 f1 f2 : String)
    (h1 : r1 = "0." ++ f1) (h2 : r2 = "0." ++ f2) :
    buildRequest parseURL ⟨url, some .POST, hdr, some (.inl r), some .formdata⟩ now r1 r2 =
      ⟨resolveURL parseURL url, .POST,
       setKey (formatHeader hdr) "content-type"
         ("multipart/form-data; boundary=" ++ ("AnyConn" ++ natToBase36 now ++ f1 ++ f2)),
       utf8Encode (formdataBody ("AnyConn" ++ natToBase36 now ++ f1 ++ f2) r)⟩ ∧
    getVal (buildRequest parseURL ⟨url, some .POST, hdr, some (.inl r), some .formdata⟩
        now r1 r2).headers "content-type" =
      some ("multipart/form-data; boundary=" ++ ("AnyConn" ++ natToBase36 now ++ f1 ++ f2)) := by
  have hb : mkBoundary now r1 r2 = "AnyConn" ++ natToBase36 now ++ f1 ++ f2 := by
    rw [mkBoundary, h1, h2, jsSubstring_radix, jsSubstring_radix, String.append_assoc]
  constructor
  · show (⟨resolveURL parseURL url, .POST,
        setKey (formatHeader hdr) "content-type"
          ("multipart/form-data; boundary=" ++ mkBoundary now r1 r2),
        utf8Encode (formdataBody (mkBoundary now r1 r2) r)⟩ : OutgoingRequest) = _
    rw [hb]
  · show getVal (setKey (formatHeader hdr) "content-type"
        ("multipart/form-data; boundary=" ++ mkBoundary now r1 r2)) "content-type" = _
    rw [hb, getVal_setKey_self]

/-- C4 (witness): the formdata theorem at timestamp 36, random representations
"0.x" and "0.yz" and the single entry k ↦ "v": boundary AnyConn10xyz, one
part, and the matching forced content-type header. -/
theorem c4_formdata_request_witness :
    buildRequest (fun _ => ⟨"http:", "http://h/p", []⟩)
        ⟨.inl "http://h/p", some .POST, none, some (.inl [("k", HVal.str "v")]),
         some .formdata⟩ 36 "0.x" "0.yz" =
      ⟨⟨"http:", "http://h/p", []⟩, .POST,
       [("accept", "*/*"), ("connection", "keep-alive"),
        ("user-agent", "AnyConn/0.0.1"),
        ("content-type", "multipart/form-data; boundary=AnyConn10xyz")],
       utf8Encode ("--AnyConn10xyz\nContent-Disposition: form-data; name=\"k\"\n\nv\n" ++
         "--AnyConn10xyz--")⟩ := by
  rw [(c4_formdata_request (fun _ => ⟨"http:", "http://h/p", []⟩) (.inl "http://h/p")
    none [("k", HVal.str "v")] 36 "0.x" "0.yz" "x" "yz" (by decide) (by decide)).1]
  decide

/-- C5 (confirmed): for a POST with dataType json — also reached when
dataType is omitted, json being the default — and a record, the body is the
UTF-8 encoding of the JSON serialization of the record, and the content-type
header is forced to application/json, overriding any caller-supplied value. -/
theorem c5_json_request (parseURL : String → URLRec) (url : Sum String URLRec)
    (hdr : Option JSRecord) (r : JSRecord) (now : Nat) (r1 r2 : String) :
    buildRequest parseURL ⟨url, some .POST, hdr, some (.inl r), some .json⟩ now r1 r2 =
      ⟨resolveURL parseURL url, .POST,
       setKey (formatHeader hdr) "content-type" "application/json",
       utf8Encode (jsonStringifyRecord r)⟩ ∧
    getVal (buildRequest parseURL ⟨url, some .POST, hdr, some (.inl r), some .json⟩
        now r1 r2).headers "content-type" = some "application/json" ∧
    buildRequest parseURL ⟨url, some .POST, hdr, some (.inl r), none⟩ now r1 r2 =
      buildRequest parseURL ⟨url, some .POST, hdr, some (.inl r), some .json⟩ now r1 r2 ∧
    utf8Encode (jsonStringifyRecord [("a", HVal.num 1)]) = utf8Encode "\x7b\"a\":1\x7d" := by
  refine ⟨rfl, ?_, rfl, by decide⟩
  show getVal (setKey (formatHeader hdr) "content-type" "application/json")
    "content-type" = some "application/json"
  rw [getVal_setKey_self]

/-- C6 (confirmed): for a POST with dataType form and a record, the body is
the UTF-8 encoding of the percent-encoded key=value pairs joined by & in
iteration order — in particular a b ↦ c&d encodes to a%20b=c%26d — and the
content-type header is forced to application/x-www-form-urlencoded. -/
theorem c6_form_request (parseURL : String → URLRec) (url : Sum String URLRec)
    (hdr : Option JSRecord) (r : JSRecord) (now : Nat) (r1 r2 : String) :
    buildRequest parseURL ⟨url, some .POST, hdr, some (.inl r), some .form⟩ now r1 r2 =
      ⟨resolveURL parseURL url, .POST,
       setKey (formatHeader hdr) "content-type" "application/x-www-form-urlencoded",
       utf8Encode (formEncode r)⟩ ∧
    getVal (buildRequest parseURL ⟨url, some .POST, hdr, some (.inl r), some .form⟩
        now r1 r2).headers "content-type" = some "application/x-www-form-urlencoded" ∧
    formEncode [("a b", HVal.str "c&d")] = "a%20b=c%26d" := by
  refine ⟨rfl, ?_, by decide⟩
  show getVal (setKey (formatHeader hdr) "content-type" "application/x-www-form-urlencoded")
    "content-type" = some "application/x-www-form-urlencoded"
  rw [getVal_setKey_self]

theorem getVal_spSet_self (l : List (String × String)) (k v : String) :
    getVal (spSet l k v) k = some v := by
  induction l with
  | nil => simp [spSet, getVal_cons]
  | cons p rest ih =>
    by_cases h : p.1 = k
    · simp [spSet, h, getVal_cons]
    · simp [spSet, h, getVal_cons, ih]

theorem filter_ne_filter_eq_nil (m : List (String × String)) (k : String) :
    (m.filter (fun q => q.1 ≠ k)).filter (fun q => q.1 = k) = [] := by
  induction m with
  | nil => rfl
  | cons q qs ihq =>
    by_cases hq : q.1 = k
    · simp [List.filter, hq, ihq]
    · simp [List.filter, hq, ihq]

theorem spSet_filter_key (l : List (String × String)) (k v : String) :
    ((spSet l k v).filter (fun q => q.1 = k)).length = 1 := by
  induction l with
  | nil => simp [spSet]
  | cons p rest ih =>
    by_cases h : p.1 = k
    · simp [spSet, h, List.filter, filter_ne_filter_eq_nil]
    · simp [spSet, h, List.filter, ih]

/-- C7 (confirmed): a GET request with a record carries no body bytes; each
entry whose value is not null/undefined is set on the URL query string as
key=stringified(value) via searchParams.set, in entry order; null/undefined
entries are skipped; set overwrites rather than appends, so the last write
wins per key and identically-named existing query parameters are replaced
(exactly one pair per set key remains). -/
theorem c7_get_query (parseURL : String → URLRec) (url : Sum String URLRec)
    (hdr : Option JSRecord) (r : JSRecord) (dt : Option DataType)
    (now : Nat) (r1 r2 : String) :
    buildRequest parseURL ⟨url, some .GET, hdr, some (.inl r), dt⟩ now r1 r2 =
      ⟨⟨(resolveURL parseURL url).protocol, (resolveURL parseURL url).base,
        applyQuery (resolveURL parseURL url).params r⟩, .GET, formatHeader hdr, []⟩ ∧
    sendsBody (buildRequest parseURL ⟨url, some .GET, hdr, some (.inl r), dt⟩
      now r1 r2) = false ∧
    buildRequest parseURL ⟨url, none, hdr, some (.inl r), dt⟩ now r1 r2 =
      buildRequest parseURL ⟨url, some .GET, hdr, some (.inl r), dt⟩ now r1 r2 ∧
    (∀ (ps : List (String × String)) (kv : String × HVal) (rest : JSRecord),
      kv.2.isInvalidValue = true → applyQuery ps (kv :: rest) = applyQuery ps rest) ∧
    (∀ (ps : List (String × String)) (k val : String),
      getVal (spSet ps k val) k = some val) ∧
    (∀ (ps : List (String × String)) (k val : String),
      ((spSet ps k val).filter (fun q => q.1 = k)).length = 1) := by
  refine ⟨rfl, rfl, rfl, ?_, ?_, ?_⟩
  · intro ps kv rest h
    simp [applyQuery, h]
  · intro ps k val
    exact getVal_spSet_self ps k val
  · intro ps k val
    exact spSet_filter_key ps k val

/-- C7 (witness): the GET theorem at the record a ↦ 1, skip ↦ null, a ↦ … —
concretely: data a ↦ 1, b ↦ "x", skip ↦ null on a URL that already carries
a=0 yields query a=1, b=x with the caller's a replaced, and no body. -/
theorem c7_get_query_witness :
    buildRequest (fun _ => ⟨"http:", "http://h/p", [("a", "0")]⟩)
        ⟨.inl "http://h/p", some .GET, none,
         some (.inl [("a", HVal.num 1), ("b", HVal.str "x"), ("skip", HVal.null)]),
         none⟩ 0 "" "" =
      ⟨⟨"http:", "http://h/p", [("a", "1"), ("b", "x")]⟩, .GET,
       [("accept", "*/*"), ("connection", "keep-alive"), ("user-agent", "AnyConn/0.0.1")],
       []⟩ ∧
    applyQuery [] [(("skip" : String), HVal.undef)] = [] := by
  constructor
  · rw [(c7_get_query (fun _ => ⟨"http:", "http://h/p", [("a", "0")]⟩) (.inl "http://h/p")
      none [("a", HVal.num 1), ("b", HVal.str "x"), ("skip", HVal.null)] none 0 "" "").1]
    decide
  · exact (c7_get_query (fun _ => ⟨"http:", "http://h/p", []⟩) (.inr ⟨"http:", "", []⟩)
      none [] none 0 "" "").2.2.2.1 [] ("skip", HVal.undef) [] (by decide)

/-- C8 (confirmed): a POST whose data is a raw string rather than a record
performs no body encoding: the outgoing body is empty, nothing is written on
the wire, and the content-type header is left exactly as the merged caller
headers produced it. -/
theorem c8_raw_string_post (parseURL : String → URLRec) (url : Sum String URLRec)
    (hdr : Option JSRecord) (s : String) (dt : Option DataType)
    (now : Nat) (r1 r2 : String) :
    buildRequest parseURL ⟨url, some .POST, hdr, some (.inr s), dt⟩ now r1 r2 =
      ⟨resolveURL parseURL url, .POST, formatHeader hdr, []⟩ ∧
    sendsBody (buildRequest parseURL ⟨url, some .POST, hdr, some (.inr s), dt⟩
      now r1 r2) = false ∧
    (buildRequest parseURL ⟨url, some .POST, hdr, some (.inr s), dt⟩ now r1 r2).headers =
      formatHeader hdr := ⟨rfl, rfl, rfl⟩

/-- C9 (confirmed): the resolved value of a completed response is dispatched
on the parsed content-type descriptor: a json format decodes the accumulated
bytes with the descriptor's charset and parses them as JSON; otherwise a text
type decodes the bytes with the charset and performs no parse; otherwise the
raw accumulated bytes are returned unchanged.  The resolved statusCode is the
response status, or 0 when it is absent. -/
theorem c9_response_decoding {α : Type} (jsonParse : String → Except String α)
    (decode : String → List Nat → String) (respHeaders : List (String × String))
    (status : Option Nat) (chunks : List (List Nat)) :
    (∀ v, (getContentType (getVal respHeaders "content-type")).format = some "json" →
      jsonParse (decode (getContentType (getVal respHeaders "content-type")).charset
        chunks.flatten) = .ok v →
      onEnd jsonParse decode respHeaders status chunks =
        .resolved ⟨status.getD 0, .json v, respHeaders⟩) ∧
    ((getContentType (getVal respHeaders "content-type")).format ≠ some "json" →
      (getContentType (getVal respHeaders "content-type")).type = "text" →
      onEnd jsonParse decode respHeaders status chunks =
        .resolved ⟨status.getD 0,
          .str (decode (getContentType (getVal respHeaders "content-type")).charset
            chunks.flatten), respHeaders⟩) ∧
    ((getContentType (getVal respHeaders "content-type")).format ≠ some "json" →
      (getContentType (getVal respHeaders "content-type")).type ≠ "text" →
      onEnd jsonParse decode respHeaders status chunks =
        .resolved ⟨status.getD 0, .buf chunks.flatten, respHeaders⟩) := by
  refine ⟨?_, ?_, ?_⟩
  · intro v hfmt hok
    simp [onEnd, hfmt, hok]
  · intro hfmt htype
    simp [onEnd, hfmt, htype]
  · intro hfmt htype
    simp [onEnd, hfmt, htype]

/-- C9 (witness): the dispatch theorem at concrete responses — an
application/json response whose byte 55 decodes to "7" and parses to the
value 7 resolves with that value and status 200; a response with no
content-type header resolves its bytes as latin-1 style text with status 0. -/
theorem c9_response_decoding_witness :
    onEnd (fun s => (Except.ok s.length : Except String Nat))
        (fun _ b => String.mk (b.map Char.ofNat))
        [("content-type", "application/json")] (some 200) [[55]] =
      .resolved ⟨200, .json 1, [("content-type", "application/json")]⟩ ∧
    onEnd (fun s => (Except.ok s.length : Except String Nat))
        (fun _ b => String.mk (b.map Char.ofNat)) [] none [[104, 105]] =
      .resolved ⟨0, .str "hi", []⟩ := by
  constructor
  · rw [(c9_response_decoding (fun s => (Except.ok s.length : Except String Nat))
      (fun _ b => String.mk (b.map Char.ofNat))
      [("content-type", "application/json")] (some 200) [[55]]).1 1 (by decide) (by rfl)]
    rfl
  · rw [(c9_response_decoding (fun s => (Except.ok s.length : Except String Nat))
      (fun _ b => String.mk (b.map Char.ofNat)) [] none [[104, 105]]).2.1
      (by decide) (by decide)]
    decide

/-- C10 (confirmed): calling the default export with a bare URL string builds
exactly the same outgoing request as calling it with the options record
whose url is that string and whose remaining fields take their defaults —
method GET, dataType json, no caller headers and no data. -/
theorem c10_string_option_equiv (parseURL : String → URLRec) (s : String)
    (now : Nat) (r1 r2 : String) :
    defaultExport parseURL (Sum.inl s) now r1 r2 =
      defaultExport parseURL
        (Sum.inr ⟨Sum.inl s, some .GET, none, none, some .json⟩) now r1 r2 ∧
    defaultExport parseURL (Sum.inl s) now r1 r2 =
      buildRequest parseURL ⟨Sum.inl s, none, none, none, none⟩ now r1 r2 := ⟨rfl, rfl⟩
